import Mathlib

/-!
Verification of the gesture-control system: shallow embedding of the
gesture state machines (pinch, scroll, swipe, stop/resume), the cursor
mapper, the event dispatcher, the Bluetooth mouse controller and the
websocket relay, with theorems settling the specification claims.

Conventions of the embedding:
* Real-number arithmetic of the source is modelled over `ℚ`.
* The source compares Euclidean distances (computed with `math.sqrt`)
  against constant thresholds; the embedding keeps distances squared and
  compares against the squared threshold, which is equivalent for the
  nonnegative thresholds the source uses.
* Monotonic wall-clock reads (`time.time()`) become an explicit `now : ℚ`
  input of each update.
* A hand (`hand_landmarks.landmark` in MediaPipe) is a table of 21
  landmarks, modelled as a total function from the landmark index.
-/

/-- One MediaPipe landmark: normalised image coordinates. -/
structure Landmark where
  x : ℚ
  y : ℚ
  z : ℚ
deriving DecidableEq, Repr

/-- A hand is addressed by landmark index, as `lms[i]` in the source. -/
def Hand : Type := Nat → Landmark

/-- Build a hand from a list of landmarks (index out of range yields the
origin; all source accesses use in-range well-known indices). -/
def handOfList (l : List Landmark) : Hand :=
  fun i => l.getD i ⟨0, 0, 0⟩

def WRIST : Nat := 0
def THUMB_IP : Nat := 3
def THUMB_TIP : Nat := 4
def INDEX_PIP : Nat := 6
def INDEX_TIP : Nat := 8
def MIDDLE_PIP : Nat := 10
def MIDDLE_TIP : Nat := 12
def RING_PIP : Nat := 14
def RING_TIP : Nat := 16
def PINKY_PIP : Nat := 18
def PINKY_TIP : Nat := 20

/-- Square, written `** 2` in the source. -/
def sqr (q : ℚ) : ℚ := q * q

/-- Squared 3-D distance; the source's `_dist3` is its square root, so
`_dist3 a b < t` is embedded as `dist3Sq a b < sqr t` for `t ≥ 0`. -/
def dist3Sq (a b : Landmark) : ℚ :=
  sqr (a.x - b.x) + sqr (a.y - b.y) + sqr (a.z - b.z)

/-- The events that flow from the gesture machines to the dispatcher
(`backend/input/event_loop.py` vocabulary plus the stop/resume pair). -/
inductive GEvent where
  | move (x y : ℤ)
  | click
  | pinchStartEv
  | pinchEndEv
  | scrollEv (dy : ℚ)
  | screenshotEv
  | controlLeft
  | controlRight
  | stopEv
  | resumeEv
deriving DecidableEq, Repr

/-! ## Pinch machine (`backend/gestures/pinch.py`) -/

/-- Constructor parameters of `PinchDetector`. -/
structure PinchConfig where
  pinch_threshold : ℚ
  release_threshold : ℚ
  hold_delay_s : ℚ
deriving Repr

/-- Mutable fields `_pinch_start_t` and `_dragging` of `PinchDetector`. -/
structure PinchState where
  pinchStart : Option ℚ
  dragging : Bool
deriving DecidableEq, Repr

/-- State after `PinchDetector.__init__`. -/
def pinchInit : PinchState := ⟨none, false⟩

/-- `PinchDetector.update`: one frame given the hand and the clock. -/
def pinchUpdate (cfg : PinchConfig) (s : PinchState) (h : Hand) (now : ℚ) :
    PinchState × List GEvent :=
  let d2 := dist3Sq (h THUMB_TIP) (h INDEX_TIP)
  if d2 < sqr cfg.pinch_threshold then
    let t0 := s.pinchStart.getD now
    if s.dragging = false ∧ cfg.hold_delay_s ≤ now - t0 then
      (⟨some t0, true⟩, [GEvent.pinchStartEv])
    else
      (⟨some t0, s.dragging⟩, [])
  else if sqr cfg.release_threshold < d2 then
    let evs :=
      match s.pinchStart with
      | none => []
      | some t0 =>
        if s.dragging then [GEvent.pinchEndEv]
        else if 5/100 < now - t0 then [GEvent.click]
        else []
    (⟨none, false⟩, evs)
  else
    (s, [])

/-- Run the pinch machine over a stream of (hand, time) frames,
concatenating the emitted events. -/
def pinchRun (cfg : PinchConfig) (s : PinchState) :
    List (Hand × ℚ) → PinchState × List GEvent
  | [] => (s, [])
  | (h, t) :: rest =>
    let (s1, evs) := pinchUpdate cfg s h t
    let (s2, evs2) := pinchRun cfg s1 rest
    (s2, evs ++ evs2)

/-- A hand whose thumb tip sits at distance `d` from the index tip and
whose other landmarks sit at the origin (enough for the pinch machine). -/
def pinchHand (d : ℚ) : Hand :=
  fun i => if i = THUMB_TIP then ⟨d, 0, 0⟩ else ⟨0, 0, 0⟩

def pinchCfgC : PinchConfig := ⟨3/100, 4/100, 1/4⟩

/-- The §8 pinch-drag scenario: press at 0.10, hold past 0.25 s, release. -/
def pinchStreamC : List (Hand × ℚ) :=
  [(pinchHand (8/100), 0), (pinchHand (2/100), 1/10),
   (pinchHand (2/100), 1/2), (pinchHand (9/100), 3/5)]

example :
    pinchRun pinchCfgC pinchInit pinchStreamC =
    (pinchInit, [GEvent.pinchStartEv, GEvent.pinchEndEv]) := by
  with_unfolding_all decide

/-- Reachable pinch states: `_dragging` is only ever set while
`_pinch_start_t` is set (the drag branch records the start time). -/
def pinchGood (s : PinchState) : Prop :=
  s.dragging = true → s.pinchStart ≠ none

/-- A pinch step keeps the state reachable. -/
theorem pinchUpdate_good (cfg : PinchConfig) (s : PinchState) (h : Hand)
    (now : ℚ) (hg : pinchGood s) : pinchGood (pinchUpdate cfg s h now).1 := by
  obtain ⟨ps, drag⟩ := s
  unfold pinchUpdate
  cases ps <;> cases drag <;>
    simp only [Option.getD] <;> split_ifs <;>
    simp_all [pinchGood]

/-- One pinch step preserves the running balance between `PINCH_START`
and `PINCH_END` emissions, measured against the `_dragging` flag. -/
theorem pinchUpdate_count (cfg : PinchConfig) (s : PinchState) (h : Hand)
    (now : ℚ) (hg : pinchGood s) :
    (pinchUpdate cfg s h now).2.count GEvent.pinchStartEv
        + (if s.dragging then 1 else 0) =
      (pinchUpdate cfg s h now).2.count GEvent.pinchEndEv
        + (if (pinchUpdate cfg s h now).1.dragging then 1 else 0) := by
  obtain ⟨ps, drag⟩ := s
  unfold pinchUpdate
  cases ps <;> cases drag <;>
    simp only [Option.getD] <;> split_ifs <;>
    simp_all [pinchGood, List.count_cons, List.count_nil]

/-- Running the pinch machine preserves the start/end balance. -/
theorem pinchRun_count (cfg : PinchConfig) (s : PinchState) (l : List (Hand × ℚ))
    (hg : pinchGood s) :
    (pinchRun cfg s l).2.count GEvent.pinchStartEv
        + (if s.dragging then 1 else 0) =
      (pinchRun cfg s l).2.count GEvent.pinchEndEv
        + (if (pinchRun cfg s l).1.dragging then 1 else 0) := by
  induction l generalizing s with
  | nil => rfl
  | cons p rest ih =>
    obtain ⟨h, t⟩ := p
    have step := pinchUpdate_count cfg s h t hg
    have tail := ih (pinchUpdate cfg s h t).1 (pinchUpdate_good cfg s h t hg)
    simp only [pinchRun, List.count_append]
    omega

/-- C7: for every snapshot stream started in a non-dragging state, no
prefix has more `PINCH_END` than `PINCH_START` emissions, and whenever
the machine is back with `_dragging = false` the two counts are equal
(so every closed pinch cycle is exactly balanced). -/
theorem pinch_start_end_balanced (cfg : PinchConfig) (s : PinchState)
    (hs : s.dragging = false) (l : List (Hand × ℚ)) :
    (∀ n, (pinchRun cfg s (l.take n)).2.count GEvent.pinchEndEv ≤
          (pinchRun cfg s (l.take n)).2.count GEvent.pinchStartEv) ∧
    ((pinchRun cfg s l).1.dragging = false →
      (pinchRun cfg s l).2.count GEvent.pinchStartEv =
        (pinchRun cfg s l).2.count GEvent.pinchEndEv) := by
  have hg : pinchGood s := by intro hd; rw [hs] at hd; exact absurd hd (by simp)
  constructor
  · intro n
    have := pinchRun_count cfg s (l.take n) hg
    rw [hs] at this
    simp only [Bool.false_eq_true, if_false] at this
    split_ifs at this <;> omega
  · intro hfin
    have := pinchRun_count cfg s l hg
    rw [hs, hfin] at this
    simp only [Bool.false_eq_true, if_false] at this
    omega

/-- Witness for C7 at the concrete drag cycle of `pinchStreamC`. -/
theorem pinch_start_end_balanced_witness :
    pinchInit.dragging = false ∧
    (pinchRun pinchCfgC pinchInit pinchStreamC).2.count GEvent.pinchStartEv =
      (pinchRun pinchCfgC pinchInit pinchStreamC).2.count GEvent.pinchEndEv :=
  ⟨rfl, (pinch_start_end_balanced pinchCfgC pinchInit rfl pinchStreamC).2
    (by with_unfolding_all decide)⟩

/-- C10: a frame whose thumb–index distance lies inside the hysteresis
band `pinch_threshold ≤ d ≤ release_threshold` (expressed on squared
distances, equivalently for the nonnegative thresholds) emits nothing
and leaves `_pinch_start_t` and `_dragging` untouched. -/
theorem pinch_band_no_effect (cfg : PinchConfig) (s : PinchState) (h : Hand)
    (now : ℚ) (hthr : 0 ≤ cfg.pinch_threshold)
    (hrel : cfg.pinch_threshold ≤ cfg.release_threshold)
    (h1 : sqr cfg.pinch_threshold ≤ dist3Sq (h THUMB_TIP) (h INDEX_TIP))
    (h2 : dist3Sq (h THUMB_TIP) (h INDEX_TIP) ≤ sqr cfg.release_threshold) :
    pinchUpdate cfg s h now = (s, []) := by
  unfold pinchUpdate
  rw [if_neg (not_lt.mpr h1), if_neg (not_lt.mpr h2)]

/-- Witness for C10: distance 0.035 inside the band [0.03, 0.04]. -/
theorem pinch_band_no_effect_witness :
    (0 ≤ pinchCfgC.pinch_threshold ∧
     pinchCfgC.pinch_threshold ≤ pinchCfgC.release_threshold ∧
     sqr pinchCfgC.pinch_threshold ≤
       dist3Sq (pinchHand (35/1000) THUMB_TIP) (pinchHand (35/1000) INDEX_TIP) ∧
     dist3Sq (pinchHand (35/1000) THUMB_TIP) (pinchHand (35/1000) INDEX_TIP) ≤
       sqr pinchCfgC.release_threshold) ∧
    pinchUpdate pinchCfgC ⟨some (1/10), false⟩ (pinchHand (35/1000)) (1/5) =
      (⟨some (1/10), false⟩, []) :=
  ⟨⟨by with_unfolding_all decide, by with_unfolding_all decide,
    by with_unfolding_all decide, by with_unfolding_all decide⟩,
   pinch_band_no_effect pinchCfgC ⟨some (1/10), false⟩ (pinchHand (35/1000)) (1/5)
     (by with_unfolding_all decide) (by with_unfolding_all decide)
     (by with_unfolding_all decide) (by with_unfolding_all decide)⟩

/-! ## Scroll machine (`backend/gestures/scroll.py`) -/

/-- Python's `abs`. -/
def ratAbs (q : ℚ) : ℚ := if q < 0 then -q else q

/-- Constructor parameters of `ScrollDetector`. -/
structure ScrollConfig where
  finger_raise_threshold : ℚ
  min_scroll_delta : ℚ
  scroll_sensitivity : ℚ
  finger_distance_threshold : ℚ
deriving Repr

/-- Mutable fields `_is_scrolling` and `_last_y_position`. -/
structure ScrollState where
  isScrolling : Bool
  lastY : Option ℚ
deriving DecidableEq, Repr

/-- State after `ScrollDetector.__init__`. -/
def scrollInit : ScrollState := ⟨false, none⟩

/-- `ScrollDetector._is_finger_raised`. -/
def isFingerRaised (cfg : ScrollConfig) (h : Hand) (tip pipIdx : Nat) : Bool :=
  decide (cfg.finger_raise_threshold < (h pipIdx).y - (h tip).y)

/-- `ScrollDetector._fingers_together` (squared-distance form). -/
def fingersTogetherScroll (cfg : ScrollConfig) (h : Hand) : Bool :=
  decide (dist3Sq (h INDEX_TIP) (h MIDDLE_TIP) < sqr cfg.finger_distance_threshold)

/-- `ScrollDetector._get_average_y`. -/
def averageY (h : Hand) : ℚ := ((h INDEX_TIP).y + (h MIDDLE_TIP).y) / 2

/-- The conjunction `fingers_together and exactly_two_fingers` that gates
the scroll branch of `ScrollDetector.update`. -/
def scrollActive (cfg : ScrollConfig) (h : Hand) : Bool :=
  fingersTogetherScroll cfg h &&
  (isFingerRaised cfg h INDEX_TIP INDEX_PIP &&
   isFingerRaised cfg h MIDDLE_TIP MIDDLE_PIP &&
   decide ((h RING_PIP).y ≤ (h RING_TIP).y) &&
   decide ((h PINKY_PIP).y ≤ (h PINKY_TIP).y))

/-- `ScrollDetector.update`. -/
def scrollUpdate (cfg : ScrollConfig) (s : ScrollState) (h : Hand) :
    ScrollState × List GEvent :=
  if scrollActive cfg h then
    let currentY := averageY h
    let evs :=
      match s.lastY with
      | none => []
      | some lastY =>
        let deltaY := currentY - lastY
        if cfg.min_scroll_delta < ratAbs deltaY then
          let amount := -deltaY * cfg.scroll_sensitivity
          if 3/10 < ratAbs amount then [GEvent.scrollEv amount] else []
        else []
    (⟨true, some currentY⟩, evs)
  else
    (⟨false, none⟩, [])

/-- Run the scroll machine over a stream of hands. -/
def scrollRun (cfg : ScrollConfig) (s : ScrollState) :
    List Hand → ScrollState × List GEvent
  | [] => (s, [])
  | h :: rest =>
    let (s1, evs) := scrollUpdate cfg s h
    let (s2, evs2) := scrollRun cfg s1 rest
    (s2, evs ++ evs2)

/-- A small scroll configuration: raise threshold 0.01, minimum delta
0.1, sensitivity 1, pair distance threshold 0.1. -/
def scrollCfgC : ScrollConfig := ⟨1/100, 1/10, 1, 1/10⟩

/-- A hand in the two-finger scroll pose with index and middle tips at
height `tipY`: index and middle extended and close, ring and pinky not
extended. -/
def scrollHand (tipY : ℚ) : Hand := fun i =>
  if i = INDEX_TIP then ⟨0, tipY, 0⟩
  else if i = MIDDLE_TIP then ⟨1/20, tipY, 0⟩
  else if i = INDEX_PIP then ⟨0, tipY + 1/2, 0⟩
  else if i = MIDDLE_PIP then ⟨1/20, tipY + 1/2, 0⟩
  else if i = RING_TIP then ⟨0, tipY + 1, 0⟩
  else if i = RING_PIP then ⟨0, tipY + 1/2, 0⟩
  else if i = PINKY_TIP then ⟨1/20, tipY + 1, 0⟩
  else if i = PINKY_PIP then ⟨1/20, tipY + 1/2, 0⟩
  else ⟨0, 0, 0⟩

/-- C3 counterexample: on the second active frame the movement
`Δy = 1/20` is below `min_scroll_delta = 1/10`, so nothing is
emitted — yet `_last_y_position` is advanced to the new `current_y`
(the claim requires it to stay at the old reference height `0`). -/
theorem scroll_yref_moves_without_emit :
    scrollRun scrollCfgC scrollInit [scrollHand 0, scrollHand (1/20)] =
      (⟨true, some (1/20)⟩, []) ∧
    (1/20 : ℚ) ≠ 0 := by
  with_unfolding_all decide

/-- C3 amended: on every frame in which the scroll pose is active the
machine sets `_last_y_position` to the current mean fingertip height;
the first active frame emits nothing; a subsequent active frame emits
`Scroll(-Δy·sensitivity)` measured from the previous active frame's
height exactly when `|Δy| > min_delta` and the scaled magnitude
exceeds 0.3 (so sub-threshold movement does not accumulate). -/
theorem scroll_update_spec (cfg : ScrollConfig) (s : ScrollState) (h : Hand)
    (hact : scrollActive cfg h = true) :
    (scrollUpdate cfg s h).1 = ⟨true, some (averageY h)⟩ ∧
    (s.lastY = none → (scrollUpdate cfg s h).2 = []) ∧
    (∀ ly, s.lastY = some ly →
      (scrollUpdate cfg s h).2 =
        if cfg.min_scroll_delta < ratAbs (averageY h - ly) ∧
            3/10 < ratAbs (-(averageY h - ly) * cfg.scroll_sensitivity)
        then [GEvent.scrollEv (-(averageY h - ly) * cfg.scroll_sensitivity)]
        else []) := by
  obtain ⟨sc, ly0⟩ := s
  unfold scrollUpdate
  rw [if_pos hact]
  refine ⟨rfl, ?_, ?_⟩
  · intro hnone
    simp only at hnone
    rw [hnone]
  · intro ly hly
    simp only at hly
    rw [hly]
    simp only
    by_cases h1 : cfg.min_scroll_delta < ratAbs (averageY h - ly)
    · by_cases h2 : 3/10 < ratAbs (-(averageY h - ly) * cfg.scroll_sensitivity)
      · rw [if_pos h1, if_pos h2, if_pos ⟨h1, h2⟩]
      · rw [if_pos h1, if_neg h2, if_neg (by tauto)]
    · rw [if_neg h1, if_neg (by tauto)]

/-- Witness for the amended C3 at a concrete active frame. -/
theorem scroll_update_spec_witness :
    scrollActive scrollCfgC (scrollHand (1/2)) = true ∧
    (scrollUpdate scrollCfgC ⟨true, some (1/4)⟩ (scrollHand (1/2))).1 =
      ⟨true, some (averageY (scrollHand (1/2)))⟩ :=
  ⟨by with_unfolding_all decide,
   (scroll_update_spec scrollCfgC ⟨true, some (1/4)⟩ (scrollHand (1/2))
     (by with_unfolding_all decide)).1⟩

/-! ## Cursor mapper (`backend/gestures/cursor.py`) -/

/-- `_clamp(v, lo, hi)`. -/
def clampQ (v lo hi : ℚ) : ℚ := if v < lo then lo else if hi < v then hi else v

/-- Python `int()`: truncation toward zero. -/
def pyInt (q : ℚ) : ℤ := if 0 ≤ q then ⌊q⌋ else ⌈q⌉

/-- `CursorMapper` constructor parameters. -/
structure CursorConfig where
  screen_w : ℤ
  screen_h : ℤ
  roi_x_min : ℚ
  roi_x_max : ℚ
  roi_y_min : ℚ
  roi_y_max : ℚ
  gain : ℚ
  smoothing : ℚ
  offx : ℤ
  offy : ℤ
deriving Repr

/-- Offset, clamp-to-screen and EMA tail of `CursorMapper.update`, per
axis: `tv` is the gained target, `sv0` the previous smoothed value. -/
def emaStep (a sv0 tv : ℚ) (off dim : ℤ) : ℚ :=
  (1 - a) * sv0 + a * clampQ (tv + (off : ℚ)) 0 ((dim : ℚ) - 1)

/-- One axis of `CursorMapper.update`: on the first call the smoothed
value is initialised to the target `t`; afterwards the gain is applied
relative to the previous smoothed value; then offset, clamp and EMA. -/
def cursorAxis (a gain : ℚ) (sv : Option ℚ) (t : ℚ) (off dim : ℤ) : ℚ :=
  match sv with
  | none => emaStep a t t off dim
  | some sv0 => emaStep a sv0 (sv0 + (t - sv0) * gain) off dim

/-- `CursorMapper.update`: state is `(_sx, _sy)` (unset = `none`);
returns the new state and the returned pixel pair. -/
def cursorUpdate (cfg : CursorConfig) (s : Option (ℚ × ℚ)) (h : Hand) :
    Option (ℚ × ℚ) × (ℤ × ℤ) :=
  let sx1 := cursorAxis cfg.smoothing cfg.gain (Option.map Prod.fst s)
    (clampQ (((h INDEX_TIP).x - cfg.roi_x_min) / (cfg.roi_x_max - cfg.roi_x_min)) 0 1
      * (cfg.screen_w : ℚ)) cfg.offx cfg.screen_w
  let sy1 := cursorAxis cfg.smoothing cfg.gain (Option.map Prod.snd s)
    (clampQ (((h INDEX_TIP).y - cfg.roi_y_min) / (cfg.roi_y_max - cfg.roi_y_min)) 0 1
      * (cfg.screen_h : ℚ)) cfg.offy cfg.screen_h
  (some (sx1, sy1), (pyInt sx1, pyInt sy1))

/-- Run the cursor mapper, collecting every returned pixel pair. -/
def cursorRun (cfg : CursorConfig) (s : Option (ℚ × ℚ)) :
    List Hand → Option (ℚ × ℚ) × List (ℤ × ℤ)
  | [] => (s, [])
  | h :: rest =>
    let (s1, p) := cursorUpdate cfg s h
    let (s2, ps) := cursorRun cfg s1 rest
    (s2, p :: ps)

theorem clampQ_mem (v lo hi : ℚ) (h : lo ≤ hi) :
    lo ≤ clampQ v lo hi ∧ clampQ v lo hi ≤ hi := by
  unfold clampQ
  split_ifs <;> constructor <;> linarith

theorem emaStep_bounds (a sv0 tv : ℚ) (off dim : ℤ) (hdim : 1 ≤ dim)
    (ha : 0 < a) (ha1 : a ≤ 1) (hs0 : 0 ≤ sv0) (hsd : sv0 ≤ (dim : ℚ)) :
    0 ≤ emaStep a sv0 tv off dim ∧ emaStep a sv0 tv off dim ≤ (dim : ℚ) - a := by
  have hd1 : (0 : ℚ) ≤ (dim : ℚ) - 1 := by
    have : (1 : ℚ) ≤ (dim : ℚ) := by exact_mod_cast hdim
    linarith
  obtain ⟨hc0, hc1⟩ := clampQ_mem (tv + (off : ℚ)) 0 ((dim : ℚ) - 1) hd1
  unfold emaStep
  constructor
  · have h1 : 0 ≤ (1 - a) * sv0 := mul_nonneg (by linarith) hs0
    have h2 : 0 ≤ a * clampQ (tv + (off : ℚ)) 0 ((dim : ℚ) - 1) :=
      mul_nonneg (le_of_lt ha) hc0
    linarith
  · have h1 : (1 - a) * sv0 ≤ (1 - a) * (dim : ℚ) :=
      mul_le_mul_of_nonneg_left hsd (by linarith)
    have h2 : a * clampQ (tv + (off : ℚ)) 0 ((dim : ℚ) - 1) ≤ a * ((dim : ℚ) - 1) :=
      mul_le_mul_of_nonneg_left hc1 (le_of_lt ha)
    nlinarith

theorem pyInt_bounds (q : ℚ) (dim : ℤ) (h0 : 0 ≤ q) (h1 : q < (dim : ℚ)) :
    0 ≤ pyInt q ∧ pyInt q ≤ dim - 1 := by
  unfold pyInt
  rw [if_pos h0]
  constructor
  · exact Int.floor_nonneg.mpr h0
  · have : ⌊q⌋ < dim := by
      rw [Int.floor_lt]
      exact_mod_cast h1
    omega

theorem cursorAxis_bounds (a gain : ℚ) (sv : Option ℚ) (t : ℚ) (off dim : ℤ)
    (hdim : 1 ≤ dim) (ha : 0 < a) (ha1 : a ≤ 1)
    (hsv : ∀ v, sv = some v → 0 ≤ v ∧ v ≤ (dim : ℚ) - a)
    (ht0 : 0 ≤ t) (ht1 : t ≤ (dim : ℚ)) :
    0 ≤ cursorAxis a gain sv t off dim ∧
    cursorAxis a gain sv t off dim ≤ (dim : ℚ) - a := by
  cases sv with
  | none => exact emaStep_bounds a t t off dim hdim ha ha1 ht0 ht1
  | some v =>
    obtain ⟨hv0, hv1⟩ := hsv v rfl
    exact emaStep_bounds a v _ off dim hdim ha ha1 hv0 (by linarith)

/-- The reachable cursor states: both smoothed coordinates lie in
`[0, dim - smoothing]`. -/
def cursorInv (cfg : CursorConfig) (s : Option (ℚ × ℚ)) : Prop :=
  ∀ sx sy, s = some (sx, sy) →
    0 ≤ sx ∧ sx ≤ (cfg.screen_w : ℚ) - cfg.smoothing ∧
    0 ≤ sy ∧ sy ≤ (cfg.screen_h : ℚ) - cfg.smoothing

theorem cursorUpdate_bounds (cfg : CursorConfig) (s : Option (ℚ × ℚ)) (h : Hand)
    (hW : 1 ≤ cfg.screen_w) (hH : 1 ≤ cfg.screen_h)
    (ha : 0 < cfg.smoothing) (ha1 : cfg.smoothing ≤ 1)
    (hs : cursorInv cfg s) :
    cursorInv cfg (cursorUpdate cfg s h).1 ∧
    0 ≤ (cursorUpdate cfg s h).2.1 ∧
    (cursorUpdate cfg s h).2.1 ≤ cfg.screen_w - 1 ∧
    0 ≤ (cursorUpdate cfg s h).2.2 ∧
    (cursorUpdate cfg s h).2.2 ≤ cfg.screen_h - 1 := by
  have hWQ : (1 : ℚ) ≤ (cfg.screen_w : ℚ) := by exact_mod_cast hW
  have hHQ : (1 : ℚ) ≤ (cfg.screen_h : ℚ) := by exact_mod_cast hH
  obtain ⟨hnx0, hnx1⟩ := clampQ_mem ((((h INDEX_TIP).x - cfg.roi_x_min) /
    (cfg.roi_x_max - cfg.roi_x_min))) 0 1 (by norm_num)
  obtain ⟨hny0, hny1⟩ := clampQ_mem ((((h INDEX_TIP).y - cfg.roi_y_min) /
    (cfg.roi_y_max - cfg.roi_y_min))) 0 1 (by norm_num)
  have hx := cursorAxis_bounds cfg.smoothing cfg.gain (Option.map Prod.fst s)
    (clampQ (((h INDEX_TIP).x - cfg.roi_x_min) / (cfg.roi_x_max - cfg.roi_x_min)) 0 1
      * (cfg.screen_w : ℚ)) cfg.offx cfg.screen_w hW ha ha1
    (by
      intro v hv
      cases s with
      | none => cases hv
      | some p =>
        simp only [Option.map_some', Option.some_inj] at hv
        obtain ⟨h1, h2, _, _⟩ := hs p.1 p.2 (by cases p; rfl)
        rw [hv] at h1 h2
        exact ⟨h1, h2⟩)
    (mul_nonneg hnx0 (by linarith))
    (by nlinarith)
  have hy := cursorAxis_bounds cfg.smoothing cfg.gain (Option.map Prod.snd s)
    (clampQ (((h INDEX_TIP).y - cfg.roi_y_min) / (cfg.roi_y_max - cfg.roi_y_min)) 0 1
      * (cfg.screen_h : ℚ)) cfg.offy cfg.screen_h hH ha ha1
    (by
      intro v hv
      cases s with
      | none => cases hv
      | some p =>
        simp only [Option.map_some', Option.some_inj] at hv
        obtain ⟨_, _, h3, h4⟩ := hs p.1 p.2 (by cases p; rfl)
        rw [hv] at h3 h4
        exact ⟨h3, h4⟩)
    (mul_nonneg hny0 (by linarith))
    (by nlinarith)
  obtain ⟨hex0, hex1⟩ := hx
  obtain ⟨hey0, hey1⟩ := hy
  obtain ⟨hpx0, hpx1⟩ := pyInt_bounds _ cfg.screen_w hex0 (by linarith)
  obtain ⟨hpy0, hpy1⟩ := pyInt_bounds _ cfg.screen_h hey0 (by linarith)
  refine ⟨?_, hpx0, hpx1, hpy0, hpy1⟩
  intro sx sy hsome
  simp only [cursorUpdate, Option.some_inj, Prod.mk.injEq] at hsome
  obtain ⟨h1, h2⟩ := hsome
  rw [← h1, ← h2]
  exact ⟨hex0, hex1, hey0, hey1⟩

/-- C4: for every input stream of a mapper with a valid ROI, gain ≥ 1,
smoothing `α ∈ (0,1]` and a positive screen, every pixel pair ever
returned — including the very first — lies in
`[0, W-1] × [0, H-1]`. -/
theorem cursor_output_in_bounds (cfg : CursorConfig)
    (hW : 1 ≤ cfg.screen_w) (hH : 1 ≤ cfg.screen_h)
    (hroix : cfg.roi_x_min < cfg.roi_x_max) (hroiy : cfg.roi_y_min < cfg.roi_y_max)
    (hgain : 1 ≤ cfg.gain) (ha : 0 < cfg.smoothing) (ha1 : cfg.smoothing ≤ 1)
    (l : List Hand) :
    ∀ p ∈ (cursorRun cfg none l).2,
      0 ≤ p.1 ∧ p.1 ≤ cfg.screen_w - 1 ∧ 0 ≤ p.2 ∧ p.2 ≤ cfg.screen_h - 1 := by
  have start : cursorInv cfg none := by intro sx sy hsome; cases hsome
  clear hroix hroiy hgain
  revert start
  generalize none = s
  induction l generalizing s with
  | nil =>
    intro _ p hp
    simp only [cursorRun, List.not_mem_nil] at hp
  | cons h rest ih =>
    intro hinv p hp
    obtain ⟨hinv1, hb⟩ := cursorUpdate_bounds cfg s h hW hH ha ha1 hinv
    simp only [cursorRun, List.mem_cons] at hp
    rcases hp with hp | hp
    · subst hp; exact hb
    · exact ih (cursorUpdate cfg s h).1 hinv1 p hp

/-- Witness for C4: a 100×100 screen, the source's default ROI/gain/
smoothing, and a single frame. -/
theorem cursor_output_in_bounds_witness :
    ((1 : ℤ) ≤ 100 ∧ (1/20 : ℚ) < 19/20 ∧ (1/10 : ℚ) < 9/10 ∧
     (1 : ℚ) ≤ 11/5 ∧ (0 : ℚ) < 3/20 ∧ (3/20 : ℚ) ≤ 1) ∧
    ∀ p ∈ (cursorRun ⟨100, 100, 1/20, 19/20, 1/10, 9/10, 11/5, 3/20, 5, 0⟩
      none [scrollHand (1/2)]).2,
      0 ≤ p.1 ∧ p.1 ≤ 100 - 1 ∧ 0 ≤ p.2 ∧ p.2 ≤ 100 - 1 :=
  ⟨⟨by norm_num, by norm_num, by norm_num, by norm_num, by norm_num, by norm_num⟩,
   cursor_output_in_bounds ⟨100, 100, 1/20, 19/20, 1/10, 9/10, 11/5, 3/20, 5, 0⟩
     (by norm_num) (by norm_num) (by norm_num) (by norm_num)
     (by norm_num) (by norm_num) (by norm_num) [scrollHand (1/2)]⟩

/-! ## Relay server (`backend/server/relay.py`) -/

/-- A well-formed JSON message at the relay: the value of its `type`
field (absent = `none`) and an opaque rendering of the rest. The relay
inspects only the `type` field and forwards messages unchanged. -/
structure JsonMsg where
  mtype : Option String
  body : String
deriving DecidableEq, Repr

def pongMsg : JsonMsg := ⟨some "PONG", ""⟩

def errInvalidJson : JsonMsg := ⟨some "ERROR", "Invalid JSON"⟩

/-- The global `SESSIONS` table: session id to the session's peer set,
kept as a duplicate-free list; peers are abstract numbered handles. -/
abbrev Sessions := List (String × List Nat)

/-- `session_id in SESSIONS` plus the lookup. -/
def lookupSession : Sessions → String → Option (List Nat)
  | [], _ => none
  | (k, ps) :: rest, sid => if k = sid then some ps else lookupSession rest sid

/-- Replace the peer set of an existing session. -/
def updateSession : Sessions → String → List Nat → Sessions
  | [], _, _ => []
  | (k, ps) :: rest, sid, new =>
    if k = sid then (k, new) :: rest else (k, ps) :: updateSession rest sid new

/-- `SESSIONS.setdefault(session_id, set()).add(ws)` on a valid JOIN. -/
def sessJoin : Sessions → String → Nat → Sessions
  | [], sid, p => [(sid, [p])]
  | (k, ps) :: rest, sid, p =>
    if k = sid then (k, if p ∈ ps then ps else ps ++ [p]) :: rest
    else (k, ps) :: sessJoin rest sid p

/-- `broadcast(session_id, sender, message)`: sends the payload to every
peer of the session other than the sender; `live w = false` means the
`ws.send` raises, after which the loop discards the dead peers from the
session's set (without removing the session when it empties). Returns
the new table and the deliveries actually made. -/
def sessBroadcast (S : Sessions) (sid : String) (sender : Nat)
    (live : Nat → Bool) (m : JsonMsg) : Sessions × List (Nat × JsonMsg) :=
  match lookupSession S sid with
  | none => (S, [])
  | some ps =>
    let delivered := (ps.filter (fun w => decide (w ≠ sender) && live w)).map
      (fun w => (w, m))
    let kept := ps.filter (fun w => decide (w = sender) || live w)
    (updateSession S sid kept, delivered)

/-- The `finally` block of `handler`: discard the peer; drop the session
entry when its set becomes empty. -/
def sessClose : Sessions → String → Nat → Sessions
  | [], _, _ => []
  | (k, ps) :: rest, sid, p =>
    if k = sid then
      let kept := ps.filter (fun w => decide (w ≠ p))
      if kept = [] then rest else (k, kept) :: rest
    else (k, ps) :: sessClose rest sid p

/-- The per-message body of `handler`'s main loop for a joined peer:
malformed JSON (`none`) is answered with an error to the sender only;
`PING` is answered with `PONG` to the sender only; everything else is
broadcast. Returns the new table and the deliveries. -/
def relayHandle (S : Sessions) (sid : String) (sender : Nat)
    (live : Nat → Bool) (raw : Option JsonMsg) : Sessions × List (Nat × JsonMsg) :=
  match raw with
  | none => (S, [(sender, errInvalidJson)])
  | some m =>
    if m.mtype = some "PING" then (S, [(sender, pongMsg)])
    else sessBroadcast S sid sender live m

/-- C2: a well-formed non-`PING` message from a joined peer is delivered
verbatim exactly once to every live other peer of the session and never
to the sender; a `PING` is answered with `PONG` to the sender alone. -/
theorem relay_forward_exactly_once (S : Sessions) (sid : String) (sender : Nat)
    (live : Nat → Bool) (m : JsonMsg) (ps : List Nat)
    (hps : lookupSession S sid = some ps) (hnd : ps.Nodup) :
    (m.mtype ≠ some "PING" →
      (∀ p : Nat,
        ((relayHandle S sid sender live (some m)).2.map Prod.fst).count p =
         if p ∈ ps ∧ p ≠ sender ∧ live p = true then 1 else 0) ∧
      (∀ pr ∈ (relayHandle S sid sender live (some m)).2,
         pr.2 = m ∧ pr.1 ≠ sender)) ∧
    (m.mtype = some "PING" →
      relayHandle S sid sender live (some m) = (S, [(sender, pongMsg)])) := by
  constructor
  · intro hm
    have hdef : relayHandle S sid sender live (some m) =
        sessBroadcast S sid sender live m := by
      simp only [relayHandle, if_neg hm]
    rw [hdef]
    unfold sessBroadcast
    rw [hps]
    simp only
    constructor
    · intro p
      have hmm : ((ps.filter (fun w => decide (w ≠ sender) && live w)).map
          (fun w => (w, m))).map Prod.fst =
          ps.filter (fun w => decide (w ≠ sender) && live w) := by
        rw [List.map_map]
        exact List.map_id _
      rw [hmm, List.count_eq_of_nodup (hnd.filter _)]
      by_cases hc : p ∈ ps ∧ p ≠ sender ∧ live p = true
      · rw [if_pos hc, if_pos]
        rw [List.mem_filter]
        exact ⟨hc.1, by simp [hc.2.1, hc.2.2]⟩
      · rw [if_neg hc, if_neg]
        intro hmem
        rw [List.mem_filter] at hmem
        obtain ⟨hmem1, hmem2⟩ := hmem
        simp only [Bool.and_eq_true, decide_eq_true_eq] at hmem2
        exact hc ⟨hmem1, hmem2.1, hmem2.2⟩
    · intro pr hpr
      simp only [List.mem_map] at hpr
      obtain ⟨w, hw, hwpr⟩ := hpr
      rw [List.mem_filter] at hw
      obtain ⟨_, hw2⟩ := hw
      simp only [Bool.and_eq_true, decide_eq_true_eq] at hw2
      rw [← hwpr]
      exact ⟨rfl, hw2.1⟩
  · intro hm
    simp only [relayHandle, if_pos hm]

/-- Witness for C2: session `s1` with peers 0,1,2, all live; peer 0
sends a clipboard message; peers 1 and 2 each receive it once. -/
theorem relay_forward_exactly_once_witness :
    (lookupSession [("s1", [0, 1, 2])] "s1" = some [0, 1, 2] ∧
     ([0, 1, 2] : List Nat).Nodup ∧
     (⟨some "CLIPBOARD_SET", "hi"⟩ : JsonMsg).mtype ≠ some "PING") ∧
    (∀ p : Nat,
      ((relayHandle [("s1", [0, 1, 2])] "s1" 0 (fun _ => true)
          (some ⟨some "CLIPBOARD_SET", "hi"⟩)).2.map Prod.fst).count p =
        if p ∈ [0, 1, 2] ∧ p ≠ 0 ∧ (fun _ : Nat => true) p = true then 1 else 0) :=
  ⟨⟨by decide, by decide, by decide⟩,
   ((relay_forward_exactly_once [("s1", [0, 1, 2])] "s1" 0 (fun _ => true)
       ⟨some "CLIPBOARD_SET", "hi"⟩ [0, 1, 2] (by decide) (by decide)).1
     (by decide)).1⟩

/-- A relay state reached by: peers 0 and 1 join `s1`; a broadcast from
peer 1 finds peer 0 dead and discards it; peer 0's handler (whose recv
side still runs) broadcasts next and finds peer 1 dead too, discarding
it. `broadcast` never deletes an emptied session entry. -/
def relayCounterState : Sessions :=
  (sessBroadcast
    (sessBroadcast (sessJoin (sessJoin [] "s1" 0) "s1" 1)
      "s1" 1 (fun p => decide (p ≠ 0)) ⟨some "MSG", "a"⟩).1
    "s1" 0 (fun p => decide (p ≠ 1)) ⟨some "MSG", "b"⟩).1

/-- C5 counterexample: after joins and two broadcasts with send
failures, session `s1` is still present in the table but maps to the
empty set — the send-failure path does not remove emptied sessions. -/
theorem relay_empty_session_left_in_table :
    lookupSession relayCounterState "s1" = some [] ∧
    ¬ (∀ sid ps, lookupSession relayCounterState sid = some ps → ps ≠ []) :=
  ⟨by decide, fun hall => hall "s1" [] (by decide) rfl⟩

/-- No session of the table maps to an empty peer set. -/
def noEmptySessions (S : Sessions) : Prop := ∀ e ∈ S, e.2 ≠ []

theorem sessJoin_noEmpty (S : Sessions) (sid : String) (p : Nat)
    (h : noEmptySessions S) : noEmptySessions (sessJoin S sid p) := by
  induction S with
  | nil =>
    intro e he
    simp only [sessJoin, List.mem_singleton] at he
    subst he
    simp
  | cons hd rest ih =>
    obtain ⟨k, ps⟩ := hd
    have hhd : ps ≠ [] := h (k, ps) (List.mem_cons_self _ _)
    have hrest : noEmptySessions rest :=
      fun e' he' => h e' (List.mem_cons_of_mem _ he')
    intro e he
    simp only [sessJoin] at he
    by_cases hk : k = sid
    · rw [if_pos hk] at he
      rcases List.mem_cons.mp he with he | he
      · subst he
        by_cases hmem : p ∈ ps
        · simpa [hmem] using hhd
        · simp [hmem]
      · exact hrest e he
    · rw [if_neg hk] at he
      rcases List.mem_cons.mp he with he | he
      · subst he; exact hhd
      · exact ih hrest e he

theorem sessClose_noEmpty (S : Sessions) (sid : String) (p : Nat)
    (h : noEmptySessions S) : noEmptySessions (sessClose S sid p) := by
  induction S with
  | nil => intro e he; cases he
  | cons hd rest ih =>
    obtain ⟨k, ps⟩ := hd
    have hhd : ps ≠ [] := h (k, ps) (List.mem_cons_self _ _)
    have hrest : noEmptySessions rest :=
      fun e' he' => h e' (List.mem_cons_of_mem _ he')
    intro e he
    simp only [sessClose] at he
    by_cases hk : k = sid
    · rw [if_pos hk] at he
      by_cases hemp : ps.filter (fun w => decide (w ≠ p)) = []
      · rw [if_pos hemp] at he
        exact hrest e he
      · rw [if_neg hemp] at he
        rcases List.mem_cons.mp he with he | he
        · subst he; exact hemp
        · exact hrest e he
    · rw [if_neg hk] at he
      rcases List.mem_cons.mp he with he | he
      · subst he; exact hhd
      · exact ih hrest e he

/-- C5 amended: the no-empty-session invariant is preserved by the join
path and by the socket-close path (which deletes an emptied entry); it
is the broadcast/send-failure path that can leave an empty session in
the table, as `relay_empty_session_left_in_table` shows. -/
theorem relay_nonempty_join_close (S : Sessions) (sid : String) (p : Nat)
    (h : noEmptySessions S) :
    noEmptySessions (sessJoin S sid p) ∧ noEmptySessions (sessClose S sid p) :=
  ⟨sessJoin_noEmpty S sid p h, sessClose_noEmpty S sid p h⟩

/-- Witness for the amended C5 on a concrete one-session table. -/
theorem relay_nonempty_join_close_witness :
    noEmptySessions [("s1", [0, 1])] ∧
    (noEmptySessions (sessJoin [("s1", [0, 1])] "s2" 7) ∧
     noEmptySessions (sessClose [("s1", [0, 1])] "s1" 0)) :=
  have hne : noEmptySessions [("s1", [0, 1])] := by
    intro e he
    simp only [List.mem_singleton] at he
    subst he
    simp
  ⟨hne, (relay_nonempty_join_close [("s1", [0, 1])] "s2" 7 hne).1,
    (relay_nonempty_join_close [("s1", [0, 1])] "s1" 0 hne).2⟩

/-! ## Event dispatcher (`backend/input/event_loop.py`) -/

/-- Backend capability calls issued by the dispatcher's consumer. -/
inductive BackCall where
  | moveTo (x y : ℤ)
  | clickLeft
  | leftDown
  | leftUp
  | screenshotCall
  | scrollCall (dy : ℚ)
deriving DecidableEq, Repr

/-- `EventLoop._process`: maps one event to backend calls; an event with
no matching branch falls through every `elif` and does nothing. -/
def processEvent : GEvent → List BackCall
  | GEvent.move x y => [BackCall.moveTo x y]
  | GEvent.click => [BackCall.clickLeft]
  | GEvent.pinchStartEv => [BackCall.leftDown]
  | GEvent.pinchEndEv => [BackCall.leftUp]
  | GEvent.screenshotEv => [BackCall.screenshotCall]
  | GEvent.scrollEv dy => [BackCall.scrollCall dy]
  | _ => []

/-- `EventLoop._run`: drains the queue in order; `none` is the sentinel
that `stop()` enqueues after setting `_stop`, so on seeing it the
`continue` re-checks the flag and the loop exits, issuing no further
backend calls. -/
def consumeQueue : List (Option GEvent) → List BackCall
  | [] => []
  | none :: _ => []
  | some e :: rest => processEvent e ++ consumeQueue rest

/-- C8 counterexample: a `PINCH_START` followed by the stop sentinel
drives only `left_down`; the consumer terminates without ever calling
`left_up`, leaving the left button logically held. -/
theorem shutdown_leaves_button_held :
    consumeQueue [some GEvent.pinchStartEv, none] = [BackCall.leftDown] ∧
    BackCall.leftUp ∉ consumeQueue [some GEvent.pinchStartEv, none] := by
  decide

theorem processEvent_leftUp_count (e : GEvent) :
    (processEvent e).count BackCall.leftUp =
      if e = GEvent.pinchEndEv then 1 else 0 := by
  cases e <;> simp [processEvent]

/-- C8 amended: the dispatcher performs no balancing on shutdown — over
any queue contents followed by the stop sentinel, `left_up` is called
exactly once per `PINCH_END` event processed (and for nothing else), so
an unmatched `PINCH_START` leaves the left button held. -/
theorem dispatcher_left_up_only_from_pinch_end (evs : List GEvent) :
    (consumeQueue (evs.map some ++ [none])).count BackCall.leftUp =
      evs.count GEvent.pinchEndEv := by
  induction evs with
  | nil => rfl
  | cons e rest ih =>
    have hstep : consumeQueue (List.map some (e :: rest) ++ [none]) =
        processEvent e ++ consumeQueue (List.map some rest ++ [none]) := rfl
    rw [hstep, List.count_append, ih, List.count_cons, processEvent_leftUp_count]
    cases e <;> simp [Nat.add_comm]

/-! ## Bluetooth mouse controller (`backend/input/bt_mouse_controller.py`) -/

/-- One HID mouse input report (Report ID 1 payload). -/
structure MouseReport where
  buttons : ℕ
  dx : ℤ
  dy : ℤ
  wheel : ℤ
deriving DecidableEq, Repr

/-- `max(-127, min(127, int(v)))` from `_send_mouse`. -/
def clampByte (v : ℤ) : ℤ := max (-127) (min 127 v)

/-- Mutable fields of `BtMouseController` used by `move_to`. -/
structure BtState where
  lastX : ℤ
  lastY : ℤ
  initialized : Bool
  buttons : ℕ
  connected : Bool
deriving DecidableEq, Repr

/-- `_send_mouse`: drops the report when not connected, else emits one
report with dx, dy and wheel clamped to the signed byte range. -/
def sendMouse (s : BtState) (buttons : ℕ) (dx dy wheel : ℤ) : List MouseReport :=
  if s.connected then [⟨buttons, clampByte dx, clampByte dy, clampByte wheel⟩]
  else []

/-- `BtMouseController.move_to`: converts the absolute target to one
relative delta against the cached position (first call only initialises
the cache), sends at most one report, and re-caches the target. -/
def btMoveTo (s : BtState) (x y : ℤ) : BtState × List MouseReport :=
  if s.initialized = false then
    (⟨x, y, true, s.buttons, s.connected⟩, [])
  else
    let dx := x - s.lastX
    let dy := y - s.lastY
    let reports := if dx ≠ 0 ∨ dy ≠ 0 then sendMouse s s.buttons dx dy 0 else []
    (⟨x, y, s.initialized, s.buttons, s.connected⟩, reports)

/-- State after `BtMouseController.__init__`, with a live connection. -/
def btInit : BtState := ⟨0, 0, false, 0, true⟩

/-- C6 counterexample: `move_to(0,0)` then `move_to(300,0)` produces one
single report with the x delta clamped to 127 — not the claimed
`⌈300/127⌉ = 3` reports — and the reported deltas sum to 127, not 300. -/
theorem bt_move_clamps_instead_of_stepping :
    (btMoveTo (btMoveTo btInit 0 0).1 300 0).2 = [⟨0, 127, 0, 0⟩] ∧
    (btMoveTo (btMoveTo btInit 0 0).1 300 0).2.length = 1 ∧
    (((300 : ℤ) - 0).natAbs + 126) / 127 = 3 ∧ (1 : ℕ) ≠ 3 ∧
    ((btMoveTo (btMoveTo btInit 0 0).1 300 0).2.map MouseReport.dx).sum = 127 ∧
    (127 : ℤ) ≠ 300 - 0 := by
  decide

theorem clampByte_eq_self (v : ℤ) (h1 : -127 ≤ v) (h2 : v ≤ 127) :
    clampByte v = v := by
  unfold clampByte
  rw [min_eq_right h2, max_eq_right h1]

theorem clampByte_mem (v : ℤ) : -127 ≤ clampByte v ∧ clampByte v ≤ 127 :=
  ⟨le_max_left _ _, max_le (by norm_num) (min_le_left _ _)⟩

/-- C6 amended: each `move_to` after initialisation sends at most one
report; when both deltas fit the signed byte range and are not both
zero, it sends exactly one report carrying the exact deltas; every
report's dx and dy lie in [-127, 127]; the cached position is always
set to the target, so overflow beyond ±127 is lost, not spread over
further reports. -/
theorem bt_move_single_report (s : BtState) (x y : ℤ)
    (hi : s.initialized = true) (hc : s.connected = true)
    (hx1 : -127 ≤ x - s.lastX) (hx2 : x - s.lastX ≤ 127)
    (hy1 : -127 ≤ y - s.lastY) (hy2 : y - s.lastY ≤ 127)
    (hnz : ¬(x - s.lastX = 0 ∧ y - s.lastY = 0)) :
    (btMoveTo s x y).2 = [⟨s.buttons, x - s.lastX, y - s.lastY, 0⟩] ∧
    (btMoveTo s x y).1.lastX = x ∧ (btMoveTo s x y).1.lastY = y ∧
    (∀ (s' : BtState) (a b : ℤ), (btMoveTo s' a b).2.length ≤ 1 ∧
      ∀ r ∈ (btMoveTo s' a b).2,
        -127 ≤ r.dx ∧ r.dx ≤ 127 ∧ -127 ≤ r.dy ∧ r.dy ≤ 127) := by
  have hbranch : (s.initialized = false) = False := by simp [hi]
  refine ⟨?_, ?_, ?_, ?_⟩
  · simp only [btMoveTo, hbranch, if_false]
    rw [if_pos (by tauto)]
    unfold sendMouse
    rw [if_pos hc, clampByte_eq_self _ hx1 hx2, clampByte_eq_self _ hy1 hy2]
    rfl
  · simp only [btMoveTo, hbranch, if_false]
  · simp only [btMoveTo, hbranch, if_false]
  · intro s' a b
    have hrep : (btMoveTo s' a b).2 = [] ∨
        (btMoveTo s' a b).2 = [⟨s'.buttons, clampByte (a - s'.lastX),
          clampByte (b - s'.lastY), clampByte 0⟩] := by
      simp only [btMoveTo, sendMouse]
      by_cases h1 : s'.initialized = false
      · rw [if_pos h1]; left; rfl
      · rw [if_neg h1]
        by_cases h2 : a - s'.lastX ≠ 0 ∨ b - s'.lastY ≠ 0
        · rw [if_pos h2]
          by_cases h3 : s'.connected = true
          · rw [if_pos h3]; right; rfl
          · rw [if_neg h3]; left; rfl
        · rw [if_neg h2]; left; rfl
    rcases hrep with hrep | hrep <;> rw [hrep]
    · exact ⟨by simp, by intro r hr; cases hr⟩
    · refine ⟨by simp, ?_⟩
      intro r hr
      rw [List.mem_singleton] at hr
      subst hr
      exact ⟨(clampByte_mem _).1, (clampByte_mem _).2,
        (clampByte_mem _).1, (clampByte_mem _).2⟩

/-- Witness for the amended C6: from cached (5,5) to (10,3). -/
theorem bt_move_single_report_witness :
    ((⟨5, 5, true, 0, true⟩ : BtState).initialized = true ∧
     (-127 ≤ (10 : ℤ) - 5 ∧ (10 : ℤ) - 5 ≤ 127) ∧
     (-127 ≤ (3 : ℤ) - 5 ∧ (3 : ℤ) - 5 ≤ 127) ∧
     ¬((10 : ℤ) - 5 = 0 ∧ (3 : ℤ) - 5 = 0)) ∧
    (btMoveTo ⟨5, 5, true, 0, true⟩ 10 3).2 = [⟨0, 10 - 5, 3 - 5, 0⟩] :=
  ⟨⟨rfl, ⟨by decide, by decide⟩, ⟨by decide, by decide⟩, by decide⟩,
   (bt_move_single_report ⟨5, 5, true, 0, true⟩ 10 3 rfl rfl
     (by decide) (by decide) (by decide) (by decide) (by decide)).1⟩

/-! ## Swipe machine (`backend/gestures/swipe.py`) -/

/-- Constructor parameters of `SwipeDetector`. -/
structure SwipeConfig where
  finger_together_threshold : ℚ
  min_swipe_distance : ℚ
  hold_time : ℚ
deriving Repr

/-- `_gesture_start_time` and `_start_position` are always set and
cleared together in the source; they are combined here into one
optional `(t0, x0, y0)` field, alongside `_last_position`. -/
structure SwipeState where
  start : Option (ℚ × ℚ × ℚ)
  lastPos : Option (ℚ × ℚ)
deriving DecidableEq, Repr

/-- State after `SwipeDetector.__init__`, also the reset state. -/
def swipeInit : SwipeState := ⟨none, none⟩

/-- `SwipeDetector._fingers_together`: at least 2 of the 3 adjacent
fingertip pairs within the threshold (`<=` as in the source, in
squared form). -/
def fingersTogetherSwipe (cfg : SwipeConfig) (h : Hand) : Bool :=
  decide (2 ≤ (([(INDEX_TIP, MIDDLE_TIP), (MIDDLE_TIP, RING_TIP),
      (RING_TIP, PINKY_TIP)].filter
    (fun pr => decide (dist3Sq (h pr.1) (h pr.2) ≤
      sqr cfg.finger_together_threshold))).length))

/-- `SwipeDetector._all_fingers_extended`: all four non-thumb tips
strictly above their PIP joints. -/
def allFourExtended (h : Hand) : Bool :=
  decide ((h INDEX_TIP).y < (h INDEX_PIP).y) &&
  decide ((h MIDDLE_TIP).y < (h MIDDLE_PIP).y) &&
  decide ((h RING_TIP).y < (h RING_PIP).y) &&
  decide ((h PINKY_TIP).y < (h PINKY_PIP).y)

/-- `SwipeDetector.update`: the `None`-hand guard, the pose gate, the
baseline recording, and the displacement/hold/direction checks; firing
resets the state to `swipeInit` while the pose is still held. -/
def swipeUpdate (cfg : SwipeConfig) (s : SwipeState) (h : Option Hand)
    (label : Option String) (now : ℚ) : SwipeState × Option GEvent :=
  match h with
  | none => (swipeInit, none)
  | some hand =>
    let cur : ℚ × ℚ := ((hand MIDDLE_TIP).x, (hand MIDDLE_TIP).y)
    if fingersTogetherSwipe cfg hand && allFourExtended hand then
      match s.start with
      | none => (⟨some (now, cur.1, cur.2), some cur⟩, none)
      | some (t0, x0, y0) =>
        let dx := cur.1 - x0
        let dy := cur.2 - y0
        if sqr cfg.min_swipe_distance ≤ sqr dx + sqr dy ∧
            cfg.hold_time ≤ now - t0 then
          if ratAbs dy < ratAbs dx then
            let result :=
              match label with
              | some "Left" => GEvent.controlLeft
              | some "Right" => GEvent.controlRight
              | _ => if 0 < dx then GEvent.controlRight else GEvent.controlLeft
            (swipeInit, some result)
          else (⟨s.start, some cur⟩, none)
        else (⟨s.start, some cur⟩, none)
    else (swipeInit, none)

/-- Run the swipe machine, collecting the emitted events. -/
def swipeRun (cfg : SwipeConfig) (s : SwipeState) :
    List (Option Hand × Option String × ℚ) → SwipeState × List GEvent
  | [] => (s, [])
  | (h, lb, t) :: rest =>
    let (s1, ev) := swipeUpdate cfg s h lb t
    let (s2, evs) := swipeRun cfg s1 rest
    (s2, ev.toList ++ evs)

/-- `SwipeDetector` constructor defaults (0.06, 0.02, 0.15). -/
def swipeCfgC : SwipeConfig := ⟨6/100, 2/100, 3/20⟩

/-- A hand holding the swipe pose with its middle tip at `(x, 0.3)`:
all four non-thumb tips coincide (trivially together) and sit above
their PIP joints. -/
def swipeHand (x : ℚ) : Hand := fun i =>
  if i = INDEX_TIP ∨ i = MIDDLE_TIP ∨ i = RING_TIP ∨ i = PINKY_TIP then
    ⟨x, 3/10, 0⟩
  else ⟨x, 1/2, 0⟩

/-- Four consecutive frames all holding the swipe pose on the right
hand, moving right twice with a pause in between. -/
def swipeStreamC : List (Option Hand × Option String × ℚ) :=
  [(some (swipeHand (4/10)), some "Right", 0),
   (some (swipeHand (1/2)), some "Right", 1/5),
   (some (swipeHand (1/2)), some "Right", 3/10),
   (some (swipeHand (3/5)), some "Right", 1/2)]

/-- C9 counterexample: with the pose held on every one of four
consecutive frames (one continuous activation, no exit), the machine
fires `CONTROL_RIGHT` twice — firing re-arms by resetting the baseline,
not by requiring a frame without the pose. -/
theorem swipe_two_fires_one_activation :
    (swipeRun swipeCfgC swipeInit swipeStreamC).2 =
      [GEvent.controlRight, GEvent.controlRight] ∧
    swipeStreamC.all (fun f =>
      match f.1 with
      | some hand => fingersTogetherSwipe swipeCfgC hand && allFourExtended hand
      | none => false) = true := by
  with_unfolding_all decide

theorem swipeUpdate_start_none (cfg : SwipeConfig) (s : SwipeState)
    (h : Option Hand) (lb : Option String) (t : ℚ) (hs : s.start = none) :
    (swipeUpdate cfg s h lb t).2 = none := by
  cases h with
  | none => rfl
  | some hand =>
    by_cases hp : (fingersTogetherSwipe cfg hand && allFourExtended hand) = true
    · simp [swipeUpdate, hp, hs]
    · simp [swipeUpdate, hp]

theorem swipeUpdate_emit_resets (cfg : SwipeConfig) (s : SwipeState)
    (h : Option Hand) (lb : Option String) (t : ℚ) :
    (swipeUpdate cfg s h lb t).2 = none ∨
    (swipeUpdate cfg s h lb t).1 = swipeInit := by
  cases h with
  | none => right; rfl
  | some hand =>
    by_cases hp : (fingersTogetherSwipe cfg hand && allFourExtended hand) = true
    · cases hstart : s.start with
      | none => left; simp [swipeUpdate, hp, hstart]
      | some p =>
        obtain ⟨t0, x0, y0⟩ := p
        simp only [swipeUpdate, hp, if_true, hstart]
        by_cases hcond : sqr cfg.min_swipe_distance ≤
            sqr ((hand MIDDLE_TIP).x - x0) + sqr ((hand MIDDLE_TIP).y - y0) ∧
            cfg.hold_time ≤ t - t0
        · rw [if_pos hcond]
          by_cases hdir : ratAbs ((hand MIDDLE_TIP).y - y0) <
              ratAbs ((hand MIDDLE_TIP).x - x0)
          · rw [if_pos hdir]; right; rfl
          · rw [if_neg hdir]; left; rfl
        · rw [if_neg hcond]; left; rfl
    · right; simp [swipeUpdate, hp]

/-- C9 amended: after the swipe machine fires, the immediately following
update call cannot fire again (firing clears the baseline, and a call
that starts with no baseline only records a new one); re-arming is by
re-baselining on a later held frame — not by requiring the pose to be
released — so within one continuous activation the machine can fire
again once a further `hold_time` and `min_dist` displacement from the
new baseline accumulate. -/
theorem swipe_no_refire_next_frame (cfg : SwipeConfig) (s : SwipeState)
    (h1 h2 : Option Hand) (lb1 lb2 : Option String) (t1 t2 : ℚ) (ev : GEvent)
    (hfire : (swipeUpdate cfg s h1 lb1 t1).2 = some ev) :
    (swipeUpdate cfg (swipeUpdate cfg s h1 lb1 t1).1 h2 lb2 t2).2 = none := by
  rcases swipeUpdate_emit_resets cfg s h1 lb1 t1 with hres | hres
  · rw [hres] at hfire; cases hfire
  · rw [hres]
    exact swipeUpdate_start_none cfg swipeInit h2 lb2 t2 rfl

/-- Witness for the amended C9: the fire on frame 2 of `swipeStreamC`
is followed by a no-fire on the (still posed) frame 3. -/
theorem swipe_no_refire_next_frame_witness :
    (swipeUpdate swipeCfgC ⟨some (0, 4/10, 3/10), some (4/10, 3/10)⟩
        (some (swipeHand (1/2))) (some "Right") (1/5)).2 =
      some GEvent.controlRight ∧
    (swipeUpdate swipeCfgC
        (swipeUpdate swipeCfgC ⟨some (0, 4/10, 3/10), some (4/10, 3/10)⟩
          (some (swipeHand (1/2))) (some "Right") (1/5)).1
        (some (swipeHand (1/2))) (some "Right") (3/10)).2 = none :=
  ⟨by with_unfolding_all decide,
   swipe_no_refire_next_frame swipeCfgC ⟨some (0, 4/10, 3/10), some (4/10, 3/10)⟩
     (some (swipeHand (1/2))) (some (swipeHand (1/2))) (some "Right")
     (some "Right") (1/5) (3/10) GEvent.controlRight
     (by with_unfolding_all decide)⟩

/-! ## Stop/Resume machine (`backend/gestures/stop_resume.py`) -/

/-- One tracked hand as the tracker yields it: its handedness label
(`results.multi_handedness`, parallel to the landmark list) and its 21
landmarks. -/
structure HandInfo where
  label : Option String
  lm : Hand

/-- `results`: the per-frame tracker output consumed by the detectors. -/
abbrev Results := List HandInfo

/-- Constructor parameters of `StopResumeDetector`. -/
structure SRConfig where
  stop_hold_time : ℚ
  circle_time_window : ℚ
  min_arc_points : ℕ
  min_arc_angle : ℚ
  min_arc_radius : ℚ
  finger_tip_connection_threshold : ℚ
deriving Repr

/-- `self._resume_cooldown = 0.8`, fixed in `__init__`. -/
def srResumeCooldown : ℚ := 8/10

/-- Mutable fields of `StopResumeDetector`. -/
structure SRState where
  stopStart : Option ℚ
  leftPos : List (ℚ × ℚ × ℚ)
  rightPos : List (ℚ × ℚ × ℚ)
  lastResume : ℚ
deriving DecidableEq, Repr

/-- State after `StopResumeDetector.__init__`. -/
def srInit : SRState := ⟨none, [], [], 0⟩

/-- `_all_fingers_extended`: all five tips strictly above IP/PIP. -/
def allFiveExtendedSR (h : Hand) : Bool :=
  decide ((h THUMB_TIP).y < (h THUMB_IP).y) &&
  decide ((h INDEX_TIP).y < (h INDEX_PIP).y) &&
  decide ((h MIDDLE_TIP).y < (h MIDDLE_PIP).y) &&
  decide ((h RING_TIP).y < (h RING_PIP).y) &&
  decide ((h PINKY_TIP).y < (h PINKY_PIP).y)

/-- `_palm_facing_up`: wrist strictly below the fingertip mean by 0.02. -/
def palmFacingUp (h : Hand) : Bool :=
  decide (((h THUMB_TIP).y + (h INDEX_TIP).y + (h MIDDLE_TIP).y +
    (h RING_TIP).y + (h PINKY_TIP).y) / 5 + 2/100 < (h WRIST).y)

/-- `_detect_stop_gesture`: exactly two hands, each with all five
fingers extended and the palm facing up. -/
def detectStop (results : Results) : Bool :=
  decide (results.length = 2) &&
  results.all (fun hi => allFiveExtendedSR hi.lm && palmFacingUp hi.lm)

/-- `_detect_arc_motion`: restrict the buffer to the time window; fewer
than `min_arc_points` recent points is never an arc. The centroid /
mean-radius / atan2 angular-span computation over floats is kept
abstract as the `arcOracle` parameter; every theorem below quantifies
over it. -/
def detectArcMotion (cfg : SRConfig) (arcOracle : List (ℚ × ℚ × ℚ) → Bool)
    (now : ℚ) (positions : List (ℚ × ℚ × ℚ)) : Bool :=
  let recent := positions.filter
    (fun p => decide (now - p.2.2 ≤ cfg.circle_time_window))
  if recent.length < cfg.min_arc_points then false
  else arcOracle recent

/-- The handedness loop of `_detect_two_hand_circle_gesture`: the last
hand labelled Left and the last labelled Right. -/
def findHands (results : Results) : Option Hand × Option Hand :=
  results.foldl (fun acc hi =>
    match hi.label with
    | some "Left" => (some hi.lm, acc.2)
    | some "Right" => (acc.1, some hi.lm)
    | _ => acc) (none, none)

/-- `_detect_two_hand_circle_gesture`: append the current index-tip
positions, prune both buffers to the window, and require both arcs plus
index tips within the connection threshold (2-D distance, `<=`). -/
def detectCircle (cfg : SRConfig) (arcOracle : List (ℚ × ℚ × ℚ) → Bool)
    (now : ℚ) (s : SRState) (results : Results) : SRState × Bool :=
  if results.length ≠ 2 then (s, false)
  else
    match findHands results with
    | (some hl, some hr) =>
      let lx := (hl INDEX_TIP).x
      let ly := (hl INDEX_TIP).y
      let rx := (hr INDEX_TIP).x
      let ry := (hr INDEX_TIP).y
      let lbuf := (s.leftPos ++ [(lx, ly, now)]).filter
        (fun p => decide (now - p.2.2 ≤ cfg.circle_time_window))
      let rbuf := (s.rightPos ++ [(rx, ry, now)]).filter
        (fun p => decide (now - p.2.2 ≤ cfg.circle_time_window))
      let leftArc := detectArcMotion cfg arcOracle now lbuf
      let rightArc := detectArcMotion cfg arcOracle now rbuf
      let connected := decide (sqr (lx - rx) + sqr (ly - ry) ≤
        sqr cfg.finger_tip_connection_threshold)
      (⟨s.stopStart, lbuf, rbuf, s.lastResume⟩, leftArc && rightArc && connected)
    | _ => (s, false)

/-- `StopResumeDetector.update`: the STOP hold check first (clearing
the buffers on emission), then — outside the cooldown — the RESUME
check, whose emission overwrites the returned event. -/
def srUpdate (cfg : SRConfig) (arcOracle : List (ℚ × ℚ × ℚ) → Bool)
    (s : SRState) (results : Results) (now : ℚ) : SRState × Option GEvent :=
  let stopStep : SRState × Option GEvent :=
    if detectStop results then
      match s.stopStart with
      | none => (⟨some now, s.leftPos, s.rightPos, s.lastResume⟩, none)
      | some t0 =>
        if cfg.stop_hold_time ≤ now - t0 then
          (⟨none, [], [], s.lastResume⟩, some GEvent.stopEv)
        else (⟨some t0, s.leftPos, s.rightPos, s.lastResume⟩, none)
    else (⟨none, s.leftPos, s.rightPos, s.lastResume⟩, none)
  let s1 := stopStep.1
  let ev1 := stopStep.2
  if srResumeCooldown ≤ now - s1.lastResume then
    let circ := detectCircle cfg arcOracle now s1 results
    if circ.2 then (⟨circ.1.stopStart, [], [], now⟩, some GEvent.resumeEv)
    else (circ.1, ev1)
  else (s1, ev1)

/-- Run the Stop/Resume machine over a stream of (results, time). -/
def srRun (cfg : SRConfig) (arcOracle : List (ℚ × ℚ × ℚ) → Bool)
    (s : SRState) : List (Results × ℚ) → SRState × List (Option GEvent)
  | [] => (s, [])
  | (r, t) :: rest =>
    let (s1, ev) := srUpdate cfg arcOracle s r t
    let (s2, evs) := srRun cfg arcOracle s1 rest
    (s2, ev :: evs)

/-- `StopResumeDetector` constructor defaults. -/
def srCfgC : SRConfig := ⟨1, 2, 5, 3/2, 1/50, 6/100⟩

/-- A palms-up hand: all five tips at height 0.3, IP/PIP joints at 0.5,
wrist at 0.9 — the STOP pose of `_detect_stop_gesture`. -/
def stopHand : Hand := fun i =>
  if i = WRIST then ⟨1/2, 9/10, 0⟩
  else if i = THUMB_TIP ∨ i = INDEX_TIP ∨ i = MIDDLE_TIP ∨
      i = RING_TIP ∨ i = PINKY_TIP then ⟨1/2, 3/10, 0⟩
  else ⟨1/2, 1/2, 0⟩

/-- Two labelled palms-up hands: the STOP pose snapshot. -/
def stopResults : Results := [⟨some "Left", stopHand⟩, ⟨some "Right", stopHand⟩]

/-- The STOP pose held at t = 0, 1 and 1.1 s: with `stop_hold_time = 1`
the machine emits `STOP` on the second frame. -/
def stopStream : List (Results × ℚ) :=
  [(stopResults, 0), (stopResults, 1), (stopResults, 11/10)]

/-! ## Main loop (`backend/main.py`) -/

/-- The `ScrollDetector` configuration built in `main()` (the fourth
parameter keeps its constructor default 0.08). -/
def mainScrollCfg : ScrollConfig := ⟨15/1000, 5/10000, 100, 8/100⟩

/-- The `PinchDetector` configuration built in `main()`. -/
def mainPinchCfg : PinchConfig := ⟨3/100, 4/100, 1/4⟩

/-- The `CursorMapper` configuration built in `main()`, over the screen
size read from the display at runtime. -/
def mainCursorCfg (W H : ℤ) : CursorConfig :=
  ⟨W, H, 5/100, 95/100, 1/10, 9/10, 11/5, 3/20, 5, 0⟩

/-- The detector states owned by `main()`'s loop. -/
structure MainState where
  scroll : ScrollState
  cursor : Option (ℚ × ℚ)
  pinch : PinchState

/-- One iteration of `main()`'s per-frame processing (main.py lines
424-449), given a snapshot with at least the tracker's hand list: run
scroll on `hands[0]`, emit `MOVE` unless `is_scrolling`, run pinch,
then forward the scroll events. The returned flag records that the
iteration then hits `frame_detector.update(results)` (line 446), a name
`main()` never defines, so the frame raises `NameError` after these
emissions (`main()` also imports `CopyPasteDetector`, which
`gestures/copy_paste.py` does not define, failing at import time). No
stop/resume machine and no pause flag appear anywhere in `main()`. -/
def mainFrame (W H : ℤ) (st : MainState) (results : Results) (now : ℚ) :
    MainState × List GEvent × Bool :=
  match results with
  | [] => (st, [], false)
  | hi :: _ =>
    let hand := hi.lm
    let scrollStep := scrollUpdate mainScrollCfg st.scroll hand
    let cursorStep :=
      if scrollStep.1.isScrolling then (st.cursor, ([] : List GEvent))
      else
        let r := cursorUpdate (mainCursorCfg W H) st.cursor hand
        (r.1, [GEvent.move r.2.1 r.2.2])
    let pinchStep := pinchUpdate mainPinchCfg st.pinch hand now
    (⟨scrollStep.1, cursorStep.1, pinchStep.1⟩,
     cursorStep.2 ++ pinchStep.2 ++ scrollStep.2, true)

/-- Is this a `MOVE` event? -/
def isMoveEv : GEvent → Bool
  | GEvent.move _ _ => true
  | _ => false

theorem scrollUpdate_inactive (cfg : ScrollConfig) (s : ScrollState) (h : Hand)
    (hact : scrollActive cfg h = false) :
    scrollUpdate cfg s h = (⟨false, none⟩, []) := by
  simp [scrollUpdate, hact]

/-- C1 (code bug): the spec's pause supervisor does not exist in the
code. On the palms-up stream `stopStream` the Stop/Resume machine —
for every possible arc predicate — emits `STOP` on the second frame;
yet `main()` never constructs or runs `StopResumeDetector` and has no
`enabled` flag: its frame processing of the very same post-STOP
snapshot emits a `MOVE` from every possible internal state (and then
raises `NameError` on the undefined `frame_detector`). -/
theorem stop_resume_never_wired (arcOracle : List (ℚ × ℚ × ℚ) → Bool)
    (W H : ℤ) (st : MainState) :
    (srRun srCfgC arcOracle srInit stopStream).2 =
      [none, some GEvent.stopEv, none] ∧
    ((mainFrame W H st stopResults (11/10)).2.1).any isMoveEv = true ∧
    (mainFrame W H st stopResults (11/10)).2.2 = true := by
  refine ⟨by with_unfolding_all rfl, ?_, ?_⟩
  · have hact : scrollActive mainScrollCfg stopHand = false := by
      with_unfolding_all decide
    simp [mainFrame, stopResults, scrollUpdate_inactive _ _ _ hact, isMoveEv]
  · simp [mainFrame, stopResults]
